import Mathlib

/-!
Verification of the SilQ ParameterNode / Parameter subsystem specification.

The repository ships the in-depth guide
`documentation/docs/in-depth guides/ParameterNode guide.ipynb`, whose code
cells and recorded outputs document the behaviour of `ParameterNode` and
`Parameter` (provided by the qcodes fork the project builds on; their
implementation is not part of this repository's sources).  The definitions
below are therefore modelled from the specification of that subsystem,
cross-checked against the concrete inputs and recorded outputs of the guide
notebook.  Parameter values are modelled as optional integers (a value is
absent before the first get/set, mirroring Python `None`); timestamps are
abstract ticks supplied by the caller, rendered through an abstract
formatting function standing for the external timestamp collaborator.
-/

set_option autoImplicit false

namespace SilQ

/-- Association-list lookup by string key, first binding wins. -/
def lookupA {α : Type} : List (String × α) → String → Option α
  | [], _ => none
  | (k, v) :: rest, n => if k = n then some v else lookupA rest n

/-- Association-list update: applies `f` to every binding of key `n`. -/
def updateA {α : Type} : List (String × α) → String → (α → α) → List (String × α)
  | [], _, _ => []
  | (k, v) :: rest, n, f =>
      if k = n then (k, f v) :: updateA rest n f else (k, v) :: updateA rest n f

/-- Modelled from the spec: a `Parameter` is a named leaf state cell.
`value` is the materialized cache (`none` before the first get/set, Python
`None`); `timestamp` is the tick of the last successful get or set (`none` if
never touched); `label` is `none` when left to default (the title-cased form
of `name`); `settable` records whether the parameter has a store-only set
fallback (qcodes `set_cmd=None`); `parent` is the back-reference to the owning
node, `none` until first attachment.  The guide's parameters carry no
value-level formatting, so raw and formatted value coincide in this model. -/
structure Param where
  name : String
  label : Option String
  value : Option Int
  timestamp : Option Nat
  settable : Bool
  parent : Option String
  deriving Repr, DecidableEq

/-- Sibling environment a delegate operates on: the owning node's
`parameters` mapping. -/
abbrev Env := List (String × Param)

/-- Modelled from the spec: the optional get/set delegates the owning node
supplies for one of its parameters (spec 4.2).  A get delegate computes the
value from the sibling parameters; a set delegate mutates the sibling
parameters realizing the new value. -/
structure Delegates where
  getD : Option (Env → Option Int)
  setD : Option (Int → Env → Env)

/-- Modelled from the spec: a `ParameterNode` is a named container of
parameters and of child nodes, with per-parameter delegate registrations,
ordinary (escape-hatch) fields, and the `use_as_attributes` /
`simplify_snapshot` configuration flags.  Root nodes may be unnamed
(`name = none`). -/
inductive PNode where
  | mk (name : Option String)
       (parameters : Env)
       (parameter_nodes : List (String × PNode))
       (delegates : List (String × Delegates))
       (fields : List (String × Int))
       (use_as_attributes : Bool)
       (simplify_snapshot : Bool) : PNode

/-- Name of a node (`none` for an unnamed root). -/
def PNode.name : PNode → Option String
  | .mk n _ _ _ _ _ _ => n

/-- The `parameters` mapping of a node. -/
def PNode.parameters : PNode → Env
  | .mk _ ps _ _ _ _ _ => ps

/-- The `parameter_nodes` mapping of a node. -/
def PNode.parameter_nodes : PNode → List (String × PNode)
  | .mk _ _ cs _ _ _ _ => cs

/-- The delegate registrations of a node. -/
def PNode.delegates : PNode → List (String × Delegates)
  | .mk _ _ _ ds _ _ _ => ds

/-- The ordinary (non-parameter) fields of a node. -/
def PNode.fields : PNode → List (String × Int)
  | .mk _ _ _ _ fs _ _ => fs

/-- The `use_as_attributes` flag of a node. -/
def PNode.use_as_attributes : PNode → Bool
  | .mk _ _ _ _ _ u _ => u

/-- The `simplify_snapshot` flag of a node. -/
def PNode.simplify_snapshot : PNode → Bool
  | .mk _ _ _ _ _ _ s => s

/-- Replace the `parameters` mapping of a node. -/
def PNode.withParameters : PNode → Env → PNode
  | .mk nm _ cs ds fs u s, ps => .mk nm ps cs ds fs u s

/-- Replace the `parameter_nodes` mapping of a node. -/
def PNode.withChildren : PNode → List (String × PNode) → PNode
  | .mk nm ps _ ds fs u s, cs => .mk nm ps cs ds fs u s

/-- Modelled from the spec: the error taxonomy of the subsystem (spec 7). -/
inductive Err where
  | NameCollisionError
  | ReadOnlyError
  | AttributeNotFoundError
  | DelegateNotRegisteredError
  deriving Repr, DecidableEq

/-- Association-list insert-or-replace, preserving insertion order: an
existing binding is replaced in place, a new name is appended at the end. -/
def bindA {α : Type} (l : List (String × α)) (n : String) (v : α) : List (String × α) :=
  if (lookupA l n).isSome then updateA l n (fun _ => v) else l ++ [(n, v)]

/-- Modelled from the spec: invoking a Parameter's get directly (spec 4.2).
If a get delegate is registered on the node for this name it computes the
value from the sibling parameters and the result is materialized into the
parameter's cache; otherwise the stored cached value is returned.  Either way
the timestamp records the successful get. -/
def paramGet (N : PNode) (n : String) (t : Nat) : Except Err (Option Int × PNode) :=
  match lookupA N.parameters n with
  | none => .error .AttributeNotFoundError
  | some p =>
    match (lookupA N.delegates n).bind Delegates.getD with
    | some g =>
        let v := g N.parameters
        .ok (v, N.withParameters
              (updateA N.parameters n (fun q => { q with value := v, timestamp := some t })))
    | none =>
        .ok (p.value, N.withParameters
              (updateA N.parameters n (fun q => { q with timestamp := some t })))

/-- Modelled from the spec: invoking a Parameter's set directly (spec 4.2).
A registered set delegate mutates the sibling parameters realizing the new
value and does not itself cache the passed value; without a delegate, a
store-only parameter stores the value directly, and a parameter with no set
capability fails with `ReadOnlyError`. -/
def paramSet (N : PNode) (n : String) (v : Int) (t : Nat) : Except Err PNode :=
  match lookupA N.parameters n with
  | none => .error .AttributeNotFoundError
  | some p =>
    match (lookupA N.delegates n).bind Delegates.setD with
    | some f =>
        .ok (N.withParameters
              (updateA (f v N.parameters) n (fun q => { q with timestamp := some t })))
    | none =>
        if p.settable then
          .ok (N.withParameters
                (updateA N.parameters n
                  (fun q => { q with value := some v, timestamp := some t })))
        else .error .ReadOnlyError

/-- Result of reading a name on a node: a forwarded parameter value, the
Parameter object itself, a child node, or an ordinary field. -/
inductive ReadResult where
  | value (v : Option Int)
  | param (p : Param)
  | node (c : PNode)
  | field (v : Int)

/-- Modelled from the spec: reading name `n` on a node, resolved in the order
of spec 4.1: (1) a parameter name under `use_as_attributes` forwards to the
parameter's get (value, cache and timestamp materialized as in a direct get);
(2) a parameter name otherwise yields the Parameter object, triggering no
get; (3) a child-node name yields the child node; (4) ordinary field lookup;
(5) `AttributeNotFoundError`. -/
def attrRead (N : PNode) (n : String) (t : Nat) : Except Err (ReadResult × PNode) :=
  match lookupA N.parameters n with
  | some p =>
      if N.use_as_attributes then
        match (lookupA N.delegates n).bind Delegates.getD with
        | some g =>
            let v := g N.parameters
            .ok (.value v, N.withParameters
                  (updateA N.parameters n (fun q => { q with value := v, timestamp := some t })))
        | none =>
            .ok (.value p.value, N.withParameters
                  (updateA N.parameters n (fun q => { q with timestamp := some t })))
      else .ok (.param p, N)
  | none =>
    match lookupA N.parameter_nodes n with
    | some c => .ok (.node c, N)
    | none =>
      match lookupA N.fields n with
      | some v => .ok (.field v, N)
      | none => .error .AttributeNotFoundError

/-- Identity of a node for the parent back-reference held by its parameters
(the node's name; unnamed roots are identified by the empty string). -/
def nodeId (N : PNode) : String := N.name.getD ""

/-- Kinds of values that can be bound to a name on a node (spec 4.1): a
Parameter object, a ParameterNode object, or any other (plain) value. -/
inductive BindVal where
  | param (p : Param)
  | node (c : PNode)
  | plain (v : Int)

/-- Modelled from the spec: binding a value to name `n` on a node,
polymorphic over the value's kind (spec 4.1).  A Parameter object is
registered under `n` (its name becomes `n`; its owner is set only if unset —
first attachment wins), a ParameterNode object is registered as a child, and
a plain value is forwarded to an existing parameter's set when
`use_as_attributes` is on, stored as an ordinary field otherwise.  A name
already used by the other kind of child fails with `NameCollisionError`. -/
def attrWrite (N : PNode) (n : String) (b : BindVal) (t : Nat) : Except Err PNode :=
  match b with
  | .param p =>
      match lookupA N.parameter_nodes n with
      | some _ => .error .NameCollisionError
      | none =>
          let p1 := { p with name := n, parent := p.parent.orElse (fun _ => some (nodeId N)) }
          .ok (N.withParameters (bindA N.parameters n p1))
  | .node c =>
      match lookupA N.parameters n with
      | some _ => .error .NameCollisionError
      | none => .ok (N.withChildren (bindA N.parameter_nodes n c))
  | .plain v =>
      if N.use_as_attributes then
        match lookupA N.parameters n with
        | some _ => paramSet N n v t
        | none => .ok (.mk N.name N.parameters N.parameter_nodes N.delegates
                        (bindA N.fields n v) N.use_as_attributes N.simplify_snapshot)
      else .ok (.mk N.name N.parameters N.parameter_nodes N.delegates
                 (bindA N.fields n v) N.use_as_attributes N.simplify_snapshot)

/-- Run a binding, with standard exception semantics: a failed binding
leaves the node exactly as it was. -/
def runWrite (N : PNode) (n : String) (b : BindVal) (t : Nat) : PNode :=
  match attrWrite N n b t with
  | .ok M => M
  | .error _ => N

/-- Prefix a dangling name with a node's name: an unnamed node contributes
nothing, a named node contributes its name and an underscore. -/
def joinNode (nm : Option String) (s : String) : String :=
  match nm with
  | none => s
  | some x => x ++ "_" ++ s

/-- Modelled from the spec: `full_name` of the parameter named `pn` reached
from node `N` along the child path `path` — derived afresh from the current
ancestry, each named node on the path contributing its name (spec 3:
recomputed whenever the owning node or the node's ancestry changes name). -/
def fullNameIn : List String → PNode → String → Option String
  | [], N, pn =>
      match lookupA N.parameters pn with
      | some _ => some (joinNode N.name pn)
      | none => none
  | c :: rest, N, pn =>
      match lookupA N.parameter_nodes c with
      | some ch => (fullNameIn rest ch pn).map (joinNode N.name)
      | none => none

/-- Names of the nodes encountered from `N` along the child path `path`,
unnamed nodes contributing nothing. -/
def namesAlong : List String → PNode → List String
  | [], N => N.name.toList
  | c :: rest, N =>
      match lookupA N.parameter_nodes c with
      | some ch => N.name.toList ++ namesAlong rest ch
      | none => N.name.toList

/-- Underscore-join of a list of name components. -/
def underscoreJoin : List String → String
  | [] => ""
  | [s] => s
  | s :: rest => s ++ "_" ++ underscoreJoin rest

/-- Values of the snapshot mapping: integers, Python `None`, strings, and
nested ordered mappings. -/
inductive SnapVal where
  | vint (i : Int)
  | vnull
  | vstr (s : String)
  | vobj (fields : List (String × SnapVal))

/-- Keys of a snapshot mapping (`none` on a non-mapping). -/
def objKeys : SnapVal → Option (List String)
  | .vobj fs => some (fs.map Prod.fst)
  | _ => none

/-- Entry lookup in a snapshot mapping. -/
def objLookup : SnapVal → String → Option SnapVal
  | .vobj fs, k => lookupA fs k
  | _, _ => none

/-- Title-cased form of a name, the default for a parameter's label:
underscores become spaces and each word is capitalized. -/
def titleCase (s : String) : String :=
  String.intercalate " " ((s.splitOn "_").map String.capitalize)

/-- Render an optional integer value, `none` becoming Python `None`. -/
def optIntVal : Option Int → SnapVal
  | none => .vnull
  | some i => .vint i

/-- Render a timestamp through the external formatting collaborator `fmt`
(an ISO-like string); a parameter never read or set renders as `None`. -/
def tsVal (fmt : Nat → String) : Option Nat → SnapVal
  | none => .vnull
  | some t => .vstr (fmt t)

/-- Type tag of a Parameter in snapshots, as recorded in the guide. -/
def paramTag : String := "qcodes.instrument.parameter.Parameter"

/-- Type tag of a ParameterNode in snapshots, as recorded in the guide. -/
def nodeTag : String := "qcodes.instrument.parameter_node.ParameterNode"

/-- Modelled from the spec: the non-simplified per-parameter summary
(spec 4.3), with the key set and order recorded in the guide notebook: type
tag, `full_name` (underscore path down to the parameter), `label`
(defaulting to the title-cased name), `name`, current `raw_value`, `ts`,
current `value`.  The guide's parameters carry no value-level formatting,
so `raw_value` and `value` coincide. -/
def paramSummary (fmt : Nat → String) (pre : List String) (p : Param) : SnapVal :=
  .vobj [("__class__", .vstr paramTag),
         ("full_name", .vstr (underscoreJoin (pre ++ [p.name]))),
         ("label", .vstr (p.label.getD (titleCase p.name))),
         ("name", .vstr p.name),
         ("raw_value", optIntVal p.value),
         ("ts", tsVal fmt p.timestamp),
         ("value", optIntVal p.value)]

mutual

/-- Modelled from the spec: the snapshot of a node (spec 4.3), `pre` being
the names of its strict ancestors.  Simplified mode collapses parameters to
name-value entries and children to their own snapshots next to the type tag;
non-simplified mode produces the full mapping recorded in the guide.  The
snapshot only reads cached values — it performs no get. -/
def snap (fmt : Nat → String) (pre : List String) : PNode → SnapVal
  | .mk nm ps cs _ _ _ simplify =>
      let pre1 := pre ++ nm.toList
      if simplify then
        .vobj (("__class__", .vstr nodeTag) ::
               (ps.map (fun kv => (kv.1, optIntVal kv.2.value)) ++
                snapKids fmt pre1 cs))
      else
        .vobj [("__class__", .vstr nodeTag),
               ("functions", .vobj []),
               ("name", match nm with | some x => .vstr x | none => .vnull),
               ("parameter_nodes", .vobj (snapKids fmt pre1 cs)),
               ("parameters", .vobj (ps.map (fun kv => (kv.1, paramSummary fmt pre1 kv.2)))),
               ("submodules", .vobj [])]

/-- Snapshots of a node's children, in insertion order. -/
def snapKids (fmt : Nat → String) (pre : List String) :
    List (String × PNode) → List (String × SnapVal)
  | [] => []
  | (k, c) :: rest => (k, snap fmt pre c) :: snapKids fmt pre rest

end

/-- Refresh every parameter of an environment as a get would: delegated
parameters recompute their value from the (pre-refresh) siblings, stored
parameters keep their value; every timestamp records the get. -/
def envRefresh (t : Nat) (ds : List (String × Delegates)) (env : Env) : Env :=
  env.map (fun kv =>
    match (lookupA ds kv.1).bind Delegates.getD with
    | some g => (kv.1, { kv.2 with value := g env, timestamp := some t })
    | none => (kv.1, { kv.2 with timestamp := some t }))

mutual

/-- Perform a get on every parameter in the node tree (the effect of the
explicit update-before-snapshot flag). -/
def updateAll (t : Nat) : PNode → PNode
  | .mk nm ps cs ds fs u s => .mk nm (envRefresh t ds ps) (updateKids t cs) ds fs u s

/-- updateAll over the children of a node. -/
def updateKids (t : Nat) : List (String × PNode) → List (String × PNode)
  | [] => []
  | (k, c) :: rest => (k, updateAll t c) :: updateKids t rest

end

/-- Modelled from the spec: the snapshot operation with its explicit
update-before-snapshot flag (spec 4.3).  Without the flag the snapshot
reports cached values and triggers no get, so the node state is returned
untouched; with the flag every parameter is refreshed by a get first. -/
def snapshot (fmt : Nat → String) (upd : Bool) (t : Nat) (N : PNode) : PNode × SnapVal :=
  if upd then
    let M := updateAll t N
    (M, snap fmt [] M)
  else (N, snap fmt [] N)

/-- Value read through attribute access, when the read yields a forwarded
parameter value (`none` when it yields an object, a field, or an error). -/
def readValue (N : PNode) (n : String) (t : Nat) : Option (Option Int) :=
  match attrRead N n t with
  | .ok (.value v, _) => some v
  | _ => none

/-- Concrete timestamp formatter standing for the external collaborator in
the concrete scenarios below. -/
def fmt0 (t : Nat) : String := toString t

/-- Store-only parameter as the guide creates them (`set_cmd=None`), the
label left to its default. -/
def mkStore (nm : String) (v : Option Int) (ts : Option Nat) (par : String) : Param :=
  { name := nm, label := none, value := v, timestamp := ts, settable := true,
    parent := some par }

/-- Getter the guide's `Pulse` node supplies for `duration`
(`duration_get`): the difference of the sibling parameters `t_stop` and
`t_start`. -/
def durationGet (env : Env) : Option Int :=
  match (lookupA env "t_stop").bind Param.value, (lookupA env "t_start").bind Param.value with
  | some a, some b => some (a - b)
  | _, _ => none

/-- Setter the guide's `Pulse` node supplies for `duration`
(`duration_set`): sets `t_stop` to `t_start + duration`, holding `t_start`
fixed, and does not touch `duration` itself. -/
def durationSet (d : Int) (env : Env) : Env :=
  updateA env "t_stop"
    (fun q => { q with value := ((lookupA env "t_start").bind Param.value).map (fun a => a + d) })

/-- The guide's `Pulse(1, 3)` node: unnamed, `use_as_attributes`, store-only
`t_start = 1` and `t_stop = 3` set at construction, and a delegated
`duration` whose get/set the node supplies. -/
def pulse : PNode :=
  .mk none
      [("t_start", mkStore "t_start" (some 1) (some 0) ""),
       ("t_stop", mkStore "t_stop" (some 3) (some 0) ""),
       ("duration", { name := "duration", label := none, value := none, timestamp := none,
                      settable := false, parent := some "" })]
      [] [("duration", { getD := some durationGet, setD := some durationSet })] [] true false

/-- The pulse node after the attribute write `pulse.duration = 5`. -/
def pulseAfter : PNode := runWrite pulse "duration" (.plain 5) 2

/-- The guide's `subnode` at the simplified-snapshot cell: simplified, one
never-touched parameter `p`. -/
def guideSubnode : PNode :=
  .mk (some "subnode") [("p", mkStore "p" none none "subnode")] [] [] [] false true

/-- The guide's `node` at the simplified-snapshot cell: simplified,
parameter `p` set to `1` at construction, child `subnode`. -/
def guideNode : PNode :=
  .mk (some "node") [("p", mkStore "p" (some 1) (some 0) "node")]
      [("subnode", guideSubnode)] [] [] false true

end SilQ

namespace SilQ

theorem lookupA_updateA {α : Type} (l : List (String × α)) (n : String) (f : α → α) :
    lookupA (updateA l n f) n = (lookupA l n).map f := by
  induction l with
  | nil => rfl
  | cons kv rest ih =>
      obtain ⟨k, v⟩ := kv
      by_cases h : k = n <;> simp [updateA, lookupA, h, ih]

theorem lookupA_append_self {α : Type} (l : List (String × α)) (n : String) (v : α)
    (h : lookupA l n = none) : lookupA (l ++ [(n, v)]) n = some v := by
  induction l with
  | nil => simp [lookupA]
  | cons kv rest ih =>
      obtain ⟨k, w⟩ := kv
      by_cases hk : k = n
      · simp [lookupA, hk] at h
      · simp [lookupA, hk] at h ⊢
        exact ih h

theorem lookupA_bindA {α : Type} (l : List (String × α)) (n : String) (v : α) :
    lookupA (bindA l n v) n = some v := by
  unfold bindA
  cases h : lookupA l n with
  | none => simp [h, lookupA_append_self l n v h]
  | some w => simp [h, lookupA_updateA]

theorem joinNode_underscoreJoin (nm : Option String) (L : List String) (h : L ≠ []) :
    joinNode nm (underscoreJoin L) = underscoreJoin (nm.toList ++ L) := by
  cases nm with
  | none => simp [joinNode, Option.toList]
  | some x =>
      cases L with
      | nil => exact absurd rfl h
      | cons a as => rfl

theorem parameters_withParameters (N : PNode) (ps : Env) :
    (N.withParameters ps).parameters = ps := by
  cases N; rfl

/-- Claim C1: on a node with `use_as_attributes = true`, reading an attribute
that names a parameter returns exactly what the Parameter's direct get
returns (same value and same post-state), and writing a plain value through
the attribute leaves the system in the same post-state as the Parameter's
direct set with that value. -/
theorem forwarded_attr_access_equals_direct_get_set
    (N : PNode) (n : String) (v : Int) (t : Nat)
    (hu : N.use_as_attributes = true) (hp : (lookupA N.parameters n).isSome = true) :
    attrRead N n t = (paramGet N n t).map (fun r => (ReadResult.value r.1, r.2))
    ∧ attrWrite N n (.plain v) t = paramSet N n v t := by
  obtain ⟨p, hp⟩ := Option.isSome_iff_exists.mp hp
  constructor
  · unfold attrRead paramGet
    rw [hp, hu]
    cases (lookupA N.delegates n).bind Delegates.getD <;> rfl
  · unfold attrWrite
    rw [hu, hp]
    rfl

/-- Witness for C1 at a concrete node with `use_as_attributes = true` and a
stored parameter `p`. -/
theorem forwarded_attr_access_equals_direct_get_set_witness :
    (PNode.mk (some "node") [("p", mkStore "p" (some 1) (some 0) "node")] [] [] [] true
      false).use_as_attributes = true
    ∧ (lookupA (PNode.mk (some "node") [("p", mkStore "p" (some 1) (some 0) "node")] [] [] []
        true false).parameters "p").isSome = true
    ∧ (attrRead (PNode.mk (some "node") [("p", mkStore "p" (some 1) (some 0) "node")] [] [] []
          true false) "p" 1 =
        (paramGet (PNode.mk (some "node") [("p", mkStore "p" (some 1) (some 0) "node")] [] [] []
          true false) "p" 1).map (fun r => (ReadResult.value r.1, r.2))
       ∧ attrWrite (PNode.mk (some "node") [("p", mkStore "p" (some 1) (some 0) "node")] [] [] []
            true false) "p" (.plain 7) 1 =
          paramSet (PNode.mk (some "node") [("p", mkStore "p" (some 1) (some 0) "node")] [] [] []
            true false) "p" 7 1) :=
  ⟨rfl, rfl,
   forwarded_attr_access_equals_direct_get_set
     (PNode.mk (some "node") [("p", mkStore "p" (some 1) (some 0) "node")] [] [] [] true false)
     "p" 7 1 rfl rfl⟩

/-- Claim C2: the guide's Pulse scenario.  With `t_start = 1`, `t_stop = 3`
and a delegated `duration`, the initial attribute read of `duration` yields
`2`; after the attribute write `duration = 5`, `t_stop` reads `6`, `t_start`
still reads `1`, `duration` reads `5`, and `duration`'s own cache was not
written by the set (the set delegated to the underlying representation). -/
theorem pulse_duration_scenario :
    readValue pulse "duration" 1 = some (some 2)
    ∧ readValue pulseAfter "t_stop" 3 = some (some 6)
    ∧ readValue pulseAfter "t_start" 3 = some (some 1)
    ∧ readValue pulseAfter "duration" 3 = some (some 5)
    ∧ (lookupA pulseAfter.parameters "duration").map Param.value = some none :=
  ⟨rfl, rfl, rfl, rfl, rfl⟩

/-- Claim C3: on a node with `use_as_attributes = false`, reading an
attribute that names a parameter returns the Parameter object itself, and
triggers no get — the node is returned untouched (no cache or timestamp
update). -/
theorem non_forwarding_attr_read_returns_parameter_object
    (N : PNode) (n : String) (t : Nat) (p : Param)
    (hu : N.use_as_attributes = false) (hp : lookupA N.parameters n = some p) :
    attrRead N n t = .ok (.param p, N) := by
  unfold attrRead
  rw [hp, hu]
  rfl

/-- Witness for C3 at a concrete node with `use_as_attributes = false`. -/
theorem non_forwarding_attr_read_returns_parameter_object_witness :
    (PNode.mk (some "node") [("p", mkStore "p" (some 1) (some 0) "node")] [] [] [] false
      false).use_as_attributes = false
    ∧ lookupA (PNode.mk (some "node") [("p", mkStore "p" (some 1) (some 0) "node")] [] [] []
        false false).parameters "p" = some (mkStore "p" (some 1) (some 0) "node")
    ∧ attrRead (PNode.mk (some "node") [("p", mkStore "p" (some 1) (some 0) "node")] [] [] []
        false false) "p" 5 =
      .ok (.param (mkStore "p" (some 1) (some 0) "node"),
           PNode.mk (some "node") [("p", mkStore "p" (some 1) (some 0) "node")] [] [] []
             false false) :=
  ⟨rfl, rfl,
   non_forwarding_attr_read_returns_parameter_object
     (PNode.mk (some "node") [("p", mkStore "p" (some 1) (some 0) "node")] [] [] [] false false)
     "p" 5 (mkStore "p" (some 1) (some 0) "node") rfl rfl⟩

/-- Claim C4: whenever `full_name` resolves for the parameter `pn` reached
from node `N` along the child path `path`, it equals the underscore-join of
the node names from the attachment root down to the owning node, joined with
the parameter's name.  The statement quantifies over arbitrary trees, so it
holds in particular after any change to the owning node's name or
ancestry (the name is rederived from the current tree). -/
theorem full_name_is_underscore_joined_path
    (path : List String) (N : PNode) (pn fn : String)
    (h : fullNameIn path N pn = some fn) :
    fn = underscoreJoin (namesAlong path N ++ [pn]) := by
  induction path generalizing N fn with
  | nil =>
      unfold fullNameIn at h
      cases hl : lookupA N.parameters pn with
      | none => rw [hl] at h; cases h
      | some p =>
          rw [hl] at h
          have h1 : joinNode N.name pn = fn := by
            simpa using h
          have h2 : joinNode N.name (underscoreJoin [pn]) =
              underscoreJoin (N.name.toList ++ [pn]) :=
            joinNode_underscoreJoin N.name [pn] (by simp)
          unfold namesAlong
          rw [← h2]
          exact h1.symm
  | cons c rest ih =>
      unfold fullNameIn at h
      cases hc : lookupA N.parameter_nodes c with
      | none => rw [hc] at h; cases h
      | some ch =>
          rw [hc] at h
          replace h : Option.map (joinNode N.name) (fullNameIn rest ch pn) = some fn := h
          cases hf : fullNameIn rest ch pn with
          | none => rw [hf] at h; cases h
          | some fn1 =>
              rw [hf] at h
              have h1 : joinNode N.name fn1 = fn := by
                simpa using h
              have h3 : fn1 = underscoreJoin (namesAlong rest ch ++ [pn]) := ih ch fn1 hf
              unfold namesAlong
              rw [hc, List.append_assoc,
                  ← joinNode_underscoreJoin N.name (namesAlong rest ch ++ [pn]) (by simp),
                  ← h3]
              exact h1.symm

/-- Witness for C4 at the guide's two-level tree: the parameter `p` on
`subnode` of `node` has full name `node_subnode_p`. -/
theorem full_name_is_underscore_joined_path_witness :
    fullNameIn ["subnode"] guideNode "p" = some "node_subnode_p"
    ∧ "node_subnode_p" = underscoreJoin (namesAlong ["subnode"] guideNode ++ ["p"]) :=
  ⟨rfl, full_name_is_underscore_joined_path ["subnode"] guideNode "p" "node_subnode_p" rfl⟩

/-- Claim C5: the guide's simplify scenario.  The simplified snapshot of
`node` (parameter `p = 1`, simplified child `subnode` with never-touched
parameter `p`) is exactly the mapping with `p` collapsed to `1` and
`subnode` collapsed to its own snapshot with `p` collapsed to `None` — equal
to the claimed mapping except for the additional type-tag entry on each
node. -/
theorem simplified_snapshot_collapses_to_values :
    snap fmt0 [] guideNode =
      .vobj [("__class__", .vstr nodeTag), ("p", .vint 1),
             ("subnode", .vobj [("__class__", .vstr nodeTag), ("p", .vnull)])] := by
  rfl

/-- Claim C6: without the explicit update-before-snapshot flag, taking a
snapshot leaves the node exactly as it was (no parameter get is triggered,
no cache or timestamp changes), and a second snapshot taken with no
intervening get or set — even at a later tick — yields an identical
mapping. -/
theorem snapshot_idempotent_and_get_free (fmt : Nat → String) (t u : Nat) (N : PNode) :
    (snapshot fmt false t N).1 = N
    ∧ (snapshot fmt false u (snapshot fmt false t N).1).2 = (snapshot fmt false t N).2 := by
  constructor <;> simp [snapshot]

/-- Claim C7: binding a ParameterNode under a name already naming a
Parameter on the same node fails with `NameCollisionError`, and after the
failure the original Parameter binding under that name is unchanged. -/
theorem binding_node_over_parameter_name_fails_atomically
    (N : PNode) (n : String) (c : PNode) (t : Nat) (p : Param)
    (hp : lookupA N.parameters n = some p) :
    attrWrite N n (.node c) t = .error .NameCollisionError
    ∧ lookupA (runWrite N n (.node c) t).parameters n = some p := by
  have he : attrWrite N n (.node c) t = .error .NameCollisionError := by
    unfold attrWrite
    rw [hp]
  refine ⟨he, ?_⟩
  unfold runWrite
  rw [he]
  exact hp

/-- Witness for C7: binding a child node under the name of the existing
parameter `p` on a concrete node. -/
theorem binding_node_over_parameter_name_fails_atomically_witness :
    lookupA (PNode.mk (some "node") [("p", mkStore "p" (some 1) (some 0) "node")] [] [] []
        false false).parameters "p" = some (mkStore "p" (some 1) (some 0) "node")
    ∧ (attrWrite (PNode.mk (some "node") [("p", mkStore "p" (some 1) (some 0) "node")] [] [] []
          false false) "p" (.node (PNode.mk (some "sub") [] [] [] [] false false)) 0 =
        .error .NameCollisionError
       ∧ lookupA (runWrite (PNode.mk (some "node")
            [("p", mkStore "p" (some 1) (some 0) "node")] [] [] [] false false) "p"
            (.node (PNode.mk (some "sub") [] [] [] [] false false)) 0).parameters "p" =
          some (mkStore "p" (some 1) (some 0) "node")) :=
  ⟨rfl,
   binding_node_over_parameter_name_fails_atomically
     (PNode.mk (some "node") [("p", mkStore "p" (some 1) (some 0) "node")] [] [] [] false false)
     "p" (PNode.mk (some "sub") [] [] [] [] false false) 0
     (mkStore "p" (some 1) (some 0) "node") rfl⟩

/-- Claim C8: the non-simplified per-parameter summary contains exactly the
entries type tag, `full_name`, `label`, `name`, `raw_value`, `ts` and
`value`; the label defaults to the title-cased form of the name; the
`full_name` is the underscore path; `raw_value` and `value` report the
current cache; and the `ts` entry holds the formatted (ISO-like) timestamp
string when the parameter has been read or set, and no timestamp value
(Python `None`, as in the guide's recorded snapshot output) when it never
was. -/
theorem parameter_summary_shape (fmt : Nat → String) (pre : List String) (p : Param)
    (hl : p.label = none) :
    objKeys (paramSummary fmt pre p) =
      some ["__class__", "full_name", "label", "name", "raw_value", "ts", "value"]
    ∧ objLookup (paramSummary fmt pre p) "label" = some (.vstr (titleCase p.name))
    ∧ objLookup (paramSummary fmt pre p) "full_name" =
        some (.vstr (underscoreJoin (pre ++ [p.name])))
    ∧ objLookup (paramSummary fmt pre p) "name" = some (.vstr p.name)
    ∧ objLookup (paramSummary fmt pre p) "raw_value" = some (optIntVal p.value)
    ∧ objLookup (paramSummary fmt pre p) "value" = some (optIntVal p.value)
    ∧ (∀ t, p.timestamp = some t →
        objLookup (paramSummary fmt pre p) "ts" = some (.vstr (fmt t)))
    ∧ (p.timestamp = none → objLookup (paramSummary fmt pre p) "ts" = some .vnull) := by
  refine ⟨rfl, ?_, rfl, rfl, rfl, rfl, ?_, ?_⟩
  · show some (SnapVal.vstr (p.label.getD (titleCase p.name))) =
      some (SnapVal.vstr (titleCase p.name))
    rw [hl]
    rfl
  · intro t ht
    show some (tsVal fmt p.timestamp) = some (SnapVal.vstr (fmt t))
    rw [ht]
    rfl
  · intro ht
    show some (tsVal fmt p.timestamp) = some SnapVal.vnull
    rw [ht]
    rfl

/-- Witness for C8 at a concrete never-touched parameter with a defaulted
label. -/
theorem parameter_summary_shape_witness :
    (mkStore "q" none none "node").label = none
    ∧ objKeys (paramSummary fmt0 ["node"] (mkStore "q" none none "node")) =
        some ["__class__", "full_name", "label", "name", "raw_value", "ts", "value"]
    ∧ objLookup (paramSummary fmt0 ["node"] (mkStore "q" none none "node")) "ts" =
        some .vnull :=
  ⟨rfl, (parameter_summary_shape fmt0 ["node"] (mkStore "q" none none "node") rfl).1,
   ((parameter_summary_shape fmt0 ["node"] (mkStore "q" none none "node") rfl).2.2.2.2.2.2.2
     rfl)⟩

/-- Claim C9: once a Parameter's owning node is set by its first attachment,
binding the Parameter to a name on any (other) node never changes the owner:
the registered copy still carries the original owner, the re-binding being a
silent no-op with respect to ownership rather than an error. -/
theorem parameter_owner_immutable_after_first_attachment
    (p : Param) (o : String) (h : p.parent = some o)
    (N : PNode) (n : String) (t : Nat) (M : PNode)
    (hw : attrWrite N n (.param p) t = .ok M)
    (p2 : Param) (hp2 : lookupA M.parameters n = some p2) :
    p2.parent = some o := by
  unfold attrWrite at hw
  cases hc : lookupA N.parameter_nodes n with
  | some _ => rw [hc] at hw; cases hw
  | none =>
      rw [hc] at hw
      simp only [Except.ok.injEq] at hw
      subst hw
      rw [parameters_withParameters, lookupA_bindA] at hp2
      simp only [Option.some.injEq] at hp2
      subst hp2
      simp [h, Option.orElse]

/-- Witness for C9: a parameter already owned by `first` is bound under a
new name on a second node; the registered copy still carries owner
`first`. -/
theorem parameter_owner_immutable_after_first_attachment_witness :
    (mkStore "p" (some 1) none "first").parent = some "first"
    ∧ attrWrite (PNode.mk (some "second") [] [] [] [] false false) "q"
        (.param (mkStore "p" (some 1) none "first")) 0 =
        .ok (runWrite (PNode.mk (some "second") [] [] [] [] false false) "q"
              (.param (mkStore "p" (some 1) none "first")) 0)
    ∧ lookupA (runWrite (PNode.mk (some "second") [] [] [] [] false false) "q"
        (.param (mkStore "p" (some 1) none "first")) 0).parameters "q" =
        some (mkStore "q" (some 1) none "first")
    ∧ (mkStore "q" (some 1) none "first").parent = some "first" :=
  ⟨rfl, rfl, rfl,
   parameter_owner_immutable_after_first_attachment
     (mkStore "p" (some 1) none "first") "first" rfl
     (PNode.mk (some "second") [] [] [] [] false false) "q" 0
     (runWrite (PNode.mk (some "second") [] [] [] [] false false) "q"
       (.param (mkStore "p" (some 1) none "first")) 0) rfl
     (mkStore "q" (some 1) none "first") rfl⟩

/-- Claim C10: a parameter bound on an unnamed (root) node has a full name
equal to its own name — the unnamed node contributes nothing and there is no
leading separator. -/
theorem unnamed_root_parameter_full_name
    (N : PNode) (pn : String)
    (h1 : N.name = none) (h2 : (lookupA N.parameters pn).isSome = true) :
    fullNameIn [] N pn = some pn := by
  obtain ⟨p, hp⟩ := Option.isSome_iff_exists.mp h2
  unfold fullNameIn
  rw [hp, h1]
  rfl

/-- Witness for C10 at a concrete unnamed node holding a parameter `p`. -/
theorem unnamed_root_parameter_full_name_witness :
    (PNode.mk none [("p", mkStore "p" (some 42) (some 1) "")] [] [] [] true false).name = none
    ∧ (lookupA (PNode.mk none [("p", mkStore "p" (some 42) (some 1) "")] [] [] [] true
        false).parameters "p").isSome = true
    ∧ fullNameIn [] (PNode.mk none [("p", mkStore "p" (some 42) (some 1) "")] [] [] [] true
        false) "p" = some "p" :=
  ⟨rfl, rfl,
   unnamed_root_parameter_full_name
     (PNode.mk none [("p", mkStore "p" (some 42) (some 1) "")] [] [] [] true false) "p"
     rfl rfl⟩

end SilQ
